import Mathlib

/-!
Shallow embedding of the Azmolo smart contracts.

The `Marketplace` Solidity contract (listing creation, purchase settlement
with commission split, cancellation, commission configuration, pull
withdrawal) is embedded as pure Lean functions over an explicit state
record.  Solidity `require` failures are modelled by `Except.error` with a
distinct error per revert reason; a failed call reverts, i.e. leaves the
state unchanged, which the `apply*` wrappers make explicit.  Solidity 0.8
checked `uint256` arithmetic is modelled over `Nat` with explicit guards
that error where the source would revert on overflow or underflow.  The
external ERC721 collection (consulted through `ownerOf`,
`isApprovedForAll`, `getApproved` and mutated by `safeTransferFrom`) is
carried in the same state record; environment steps may change it
arbitrarily, reflecting transfers and approvals performed outside the
marketplace.  The listing identifier `keccak256(tokenId, sender,
block.timestamp)` is modelled by an abstract deterministic function
`hashId`; theorems that need the (cryptographically overwhelming) fact
that the hash of these inputs is never the zero word take it as an
explicit hypothesis.

The `Payments` contract is embedded at the end in the same style.
-/

namespace Azmolo

/-- Account addresses, modelled as naturals; `0` is the zero address. -/
abbrev Address := Nat

/-- The bound `2 ^ 256`, one past the largest `uint256`; Solidity 0.8 checked
arithmetic reverts when a computation would reach it. -/
def UINT256 : Nat := 2 ^ 256

/-- The `struct Listing` of the `Marketplace` contract. -/
structure Listing where
  seller : Address
  tokenId : Nat
  price : Nat
  isActive : Bool
deriving Repr, DecidableEq

/-- The all-zero struct value a Solidity mapping yields for an absent key. -/
def Listing.empty : Listing :=
  { seller := 0, tokenId := 0, price := 0, isActive := false }

/-- The distinct revert reasons of the `Marketplace` contract, one per
`require` string, plus `overflow` for checked-arithmetic reverts. -/
inductive MarketErr where
  | invalidNFTAddress
  | commissionTooHigh
  | priceZero
  | notOwner
  | notApproved
  | alreadyListed
  | notActive
  | insufficientPayment
  | selfPurchase
  | overflow
  | sellerNoLongerOwns
  | notSeller
  | onlyOwner
  | noFunds
  | transferFailed
deriving Repr, DecidableEq

/-- The constant `MAX_COMMISSION`: maximum commission in basis points (50%). -/
def MAX_COMMISSION : Nat := 5000

/-- Contract storage of `Marketplace` together with the state of the
external ERC721 collection it trades.  `nftOwner` is `ownerOf`,
`approvedForAll a` says the marketplace is an approved operator for `a`,
and `tokenApproval t` says `getApproved(t)` is the marketplace. -/
structure MarketState where
  owner : Address
  commissionPercent : Nat
  listings : Nat → Listing
  tokenToListingId : Nat → Nat
  pendingWithdrawals : Address → Nat
  sellerListings : Address → List Listing
  nftOwner : Nat → Address
  approvedForAll : Address → Bool
  tokenApproval : Nat → Bool

/-- The `Marketplace` constructor: rejects the zero NFT contract address
and an initial commission above `MAX_COMMISSION`; the deployer becomes
`owner`.  The initial NFT-side data is supplied by the environment. -/
def constructor (deployer nftContractAddress : Address)
    (commissionPercent : Nat) (nftOwner : Nat → Address)
    (approvedForAll : Address → Bool) (tokenApproval : Nat → Bool) :
    Except MarketErr MarketState :=
  if nftContractAddress = 0 then .error .invalidNFTAddress
  else if MAX_COMMISSION < commissionPercent then .error .commissionTooHigh
  else .ok
    { owner := deployer
      commissionPercent := commissionPercent
      listings := fun _ => Listing.empty
      tokenToListingId := fun _ => 0
      pendingWithdrawals := fun _ => 0
      sellerListings := fun _ => []
      nftOwner := nftOwner
      approvedForAll := approvedForAll
      tokenApproval := tokenApproval }

/-- The approval condition the contract checks before moving a token:
`isApprovedForAll(who, this) || getApproved(tokenId) == address(this)`. -/
def isApprovedFor (s : MarketState) (who : Address) (tokenId : Nat) : Bool :=
  s.approvedForAll who || s.tokenApproval tokenId

/-- The function `createListing(_tokenId, _price)` called by `sender` at
`block.timestamp = timestamp`; the listing id is
`hashId tokenId sender timestamp`, standing for
`keccak256(abi.encodePacked(_tokenId, msg.sender, block.timestamp))`.
Checks, in source order: positive price, token ownership, approval, token
not already listed; then stores the listing, points the token index at it
and appends a copy of the stored struct to the seller's log. -/
def createListing (hashId : Nat → Address → Nat → Nat) (s : MarketState)
    (sender : Address) (tokenId price timestamp : Nat) :
    Except MarketErr MarketState :=
  if price = 0 then .error .priceZero
  else if s.nftOwner tokenId ≠ sender then .error .notOwner
  else if isApprovedFor s sender tokenId = false then .error .notApproved
  else if s.tokenToListingId tokenId ≠ 0 then .error .alreadyListed
  else
    let listingId := hashId tokenId sender timestamp
    let l : Listing :=
      { seller := sender, tokenId := tokenId, price := price, isActive := true }
    .ok { s with
      listings := Function.update s.listings listingId l
      tokenToListingId := Function.update s.tokenToListingId tokenId listingId
      sellerListings := Function.update s.sellerListings sender
        (s.sellerListings sender ++ [l]) }

/-- The `PurchaseCompleted` event: the source emits
`(_listingId, msg.sender, listing.tokenId, listing.price, block.timestamp)`. -/
structure PurchaseEvent where
  id : Nat
  buyer : Address
  tokenId : Nat
  price : Nat
  timestamp : Nat
deriving Repr, DecidableEq

/-- The function `purchaseListing(_listingId)` called by `sender` with
`msg.value = msgValue`.  Checks, in source order: listing active, payment
sufficiency, self-purchase, (checked multiplication and subtraction of the
commission split), seller still owns the token, approval still in place;
then deactivates the listing, clears the token index, credits the owner's
and seller's pending balances, transfers the token (the external
`safeTransferFrom`, whose failure reverts everything, modelled by the
`transferOk` flag checked before the new state is produced) and emits the
event.  `safeTransferFrom` moves token ownership to the buyer and, per
ERC721, clears the per-token approval. -/
def purchaseListing (s : MarketState) (sender : Address)
    (msgValue listingId timestamp : Nat) (transferOk : Bool) :
    Except MarketErr (MarketState × PurchaseEvent) :=
  let listing := s.listings listingId
  if listing.isActive = false then .error .notActive
  else if msgValue < listing.price then .error .insufficientPayment
  else if sender = listing.seller then .error .selfPurchase
  else if UINT256 ≤ msgValue * s.commissionPercent then .error .overflow
  else
    let commissionAmount := msgValue * s.commissionPercent / 10000
    if msgValue < commissionAmount then .error .overflow
    else
      let sellerAmount := msgValue - commissionAmount
      if s.nftOwner listing.tokenId ≠ listing.seller then .error .sellerNoLongerOwns
      else if isApprovedFor s listing.seller listing.tokenId = false then
        .error .notApproved
      else if UINT256 ≤ s.pendingWithdrawals s.owner + commissionAmount then
        .error .overflow
      else
        let pw1 := Function.update s.pendingWithdrawals s.owner
          (s.pendingWithdrawals s.owner + commissionAmount)
        if UINT256 ≤ pw1 listing.seller + sellerAmount then .error .overflow
        else if transferOk = false then .error .transferFailed
        else
          .ok ({ s with
              listings := Function.update s.listings listingId
                { listing with isActive := false }
              tokenToListingId := Function.update s.tokenToListingId listing.tokenId 0
              pendingWithdrawals := Function.update pw1 listing.seller
                (pw1 listing.seller + sellerAmount)
              nftOwner := Function.update s.nftOwner listing.tokenId sender
              tokenApproval := Function.update s.tokenApproval listing.tokenId false },
            { id := listingId, buyer := sender, tokenId := listing.tokenId,
              price := listing.price, timestamp := timestamp })

/-- The function `cancelListing(_listingId)` called by `sender`: requires the listing
active and the caller its seller; deactivates it and clears the token
index. -/
def cancelListing (s : MarketState) (sender : Address) (listingId : Nat) :
    Except MarketErr MarketState :=
  let listing := s.listings listingId
  if listing.isActive = false then .error .notActive
  else if listing.seller ≠ sender then .error .notSeller
  else .ok { s with
    listings := Function.update s.listings listingId
      { listing with isActive := false }
    tokenToListingId := Function.update s.tokenToListingId listing.tokenId 0 }

/-- The function `setCommissionPercent(_newPercent)`: the `onlyOwner` modifier runs
first, then the bound check; on success the stored rate is replaced. -/
def setCommissionPercent (s : MarketState) (sender : Address)
    (newPercent : Nat) : Except MarketErr MarketState :=
  if sender ≠ s.owner then .error .onlyOwner
  else if MAX_COMMISSION < newPercent then .error .commissionTooHigh
  else .ok { s with commissionPercent := newPercent }

/-- The first half of `withdrawFunds()`: the `onlyOwner` modifier, the
positive-balance check, and the zeroing of the caller's pending balance.
Returns the state as it stands when the external value transfer is
invoked, together with the amount handed to that transfer. -/
def withdrawPrepare (s : MarketState) (sender : Address) :
    Except MarketErr (MarketState × Nat) :=
  if sender ≠ s.owner then .error .onlyOwner
  else
    let amount := s.pendingWithdrawals sender
    if 0 < amount then
      .ok ({ s with
        pendingWithdrawals := Function.update s.pendingWithdrawals sender 0 },
        amount)
    else .error .noFunds

/-- The function `withdrawFunds()`: runs `withdrawPrepare` and then the external
low-level call `payable(msg.sender).call{value: amount}("")`, whose
outcome is the `transferOk` flag; `require(success)` makes a failed
transfer revert the whole call. -/
def withdrawFunds (s : MarketState) (sender : Address) (transferOk : Bool) :
    Except MarketErr (MarketState × Nat) :=
  match withdrawPrepare s sender with
  | .error e => .error e
  | .ok (s1, amount) =>
    if transferOk then .ok (s1, amount) else .error .transferFailed

/-- The view `isTokenListed(_tokenId)`. -/
def isTokenListed (s : MarketState) (tokenId : Nat) : Bool :=
  (s.listings (s.tokenToListingId tokenId)).isActive

/-- The view `getListingId(_tokenId)`. -/
def getListingId (s : MarketState) (tokenId : Nat) : Nat :=
  s.tokenToListingId tokenId

/-- The view `getListingsBySeller(_seller)`. -/
def getListingsBySeller (s : MarketState) (seller : Address) : List Listing :=
  s.sellerListings seller

/-- Transaction semantics of `createListing`: a revert leaves storage
unchanged. -/
def applyCreate (hashId : Nat → Address → Nat → Nat) (s : MarketState)
    (sender : Address) (tokenId price timestamp : Nat) : MarketState :=
  match createListing hashId s sender tokenId price timestamp with
  | .ok s' => s'
  | .error _ => s

/-- Transaction semantics of `cancelListing`: a revert leaves storage
unchanged. -/
def applyCancel (s : MarketState) (sender : Address) (listingId : Nat) :
    MarketState :=
  match cancelListing s sender listingId with
  | .ok s' => s'
  | .error _ => s

/-- Transaction semantics of `purchaseListing`: a revert leaves storage
unchanged. -/
def applyPurchase (s : MarketState) (sender : Address)
    (msgValue listingId timestamp : Nat) (transferOk : Bool) : MarketState :=
  match purchaseListing s sender msgValue listingId timestamp transferOk with
  | .ok (s', _) => s'
  | .error _ => s

/-- Transaction semantics of `setCommissionPercent`: a revert leaves
storage unchanged. -/
def applySetCommission (s : MarketState) (sender : Address)
    (newPercent : Nat) : MarketState :=
  match setCommissionPercent s sender newPercent with
  | .ok s' => s'
  | .error _ => s

/-- Transaction semantics of `withdrawFunds`: a revert — in particular a
failed external value transfer — leaves storage unchanged, restoring the
pending balance zeroed by `withdrawPrepare`. -/
def applyWithdraw (s : MarketState) (sender : Address) (transferOk : Bool) :
    MarketState :=
  match withdrawFunds s sender transferOk with
  | .ok (s', _) => s'
  | .error _ => s

/-- One successful transaction against the marketplace, or one action of
the outside world on the NFT collection (transfers and approvals made
directly on the ERC721 contract).  Reverted transactions leave the state
unchanged and therefore need no step. -/
inductive Step (hashId : Nat → Address → Nat → Nat) :
    MarketState → MarketState → Prop where
  | create (s s' : MarketState) (sender : Address) (tokenId price timestamp : Nat)
      (h : createListing hashId s sender tokenId price timestamp = .ok s') :
      Step hashId s s'
  | purchase (s s' : MarketState) (sender : Address)
      (msgValue listingId timestamp : Nat) (transferOk : Bool) (ev : PurchaseEvent)
      (h : purchaseListing s sender msgValue listingId timestamp transferOk
        = .ok (s', ev)) : Step hashId s s'
  | cancel (s s' : MarketState) (sender : Address) (listingId : Nat)
      (h : cancelListing s sender listingId = .ok s') : Step hashId s s'
  | setCommission (s s' : MarketState) (sender : Address) (newPercent : Nat)
      (h : setCommissionPercent s sender newPercent = .ok s') : Step hashId s s'
  | withdraw (s s' : MarketState) (sender : Address) (transferOk : Bool)
      (amount : Nat) (h : withdrawFunds s sender transferOk = .ok (s', amount)) :
      Step hashId s s'
  | envNft (s : MarketState) (nftOwner : Nat → Address)
      (approvedForAll : Address → Bool) (tokenApproval : Nat → Bool) :
      Step hashId s { s with
                      nftOwner := nftOwner,
                      approvedForAll := approvedForAll,
                      tokenApproval := tokenApproval }

/-- Reachability: finitely many steps from `s`. -/
inductive Reach (hashId : Nat → Address → Nat → Nat) :
    MarketState → MarketState → Prop where
  | refl (s : MarketState) : Reach hashId s s
  | tail (s s' s'' : MarketState) (h : Reach hashId s s')
      (hs : Step hashId s' s'') : Reach hashId s s''

/-! ### Concrete instances

A concrete listing-id function and a concrete deployment, used to
exercise the definitions on explicit inputs.  `hashId0` is an arbitrary
deterministic stand-in for the keccak hash; like the real hash it never
yields the zero word.  The deployment: the marketplace is deployed by
address `7` with a 2.5% commission (250 basis points) over an NFT
contract at address `9`; token `1` is owned by address `2`, which has
approved the marketplace as operator. -/

/-- A concrete deterministic listing-id function; never zero. -/
def hashId0 : Nat → Address → Nat → Nat :=
  fun tokenId sender timestamp => tokenId + sender + timestamp + 1

/-- The `ownerOf` map of the concrete collection: token `1` belongs to address `2`. -/
def nftOwner0 : Nat → Address := fun t => if t = 1 then 2 else 0

/-- Operator approvals of the concrete collection: address `2` has
approved the marketplace. -/
def approvedForAll0 : Address → Bool := fun a => a == 2

/-- Per-token approvals of the concrete collection: none. -/
def tokenApproval0 : Nat → Bool := fun _ => false

/-- The storage produced by the concrete deployment. -/
def s0c : MarketState :=
  { owner := 7
    commissionPercent := 250
    listings := fun _ => Listing.empty
    tokenToListingId := fun _ => 0
    pendingWithdrawals := fun _ => 0
    sellerListings := fun _ => []
    nftOwner := nftOwner0
    approvedForAll := approvedForAll0
    tokenApproval := tokenApproval0 }

/-- After seller `2` lists token `1` at price `1000` at time `0`
(listing id `hashId0 1 2 0 = 4`). -/
def s1c : MarketState := applyCreate hashId0 s0c 2 1 1000 0

/-- After seller `2` cancels listing `4`. -/
def s2c : MarketState := applyCancel s1c 2 4

/-- After seller `2` lists token `1` again at price `2000`, still at
time `0` — the id hashes to `4` again. -/
def s3c : MarketState := applyCreate hashId0 s2c 2 1 2000 0

/-- After buyer `3` purchases listing `4` from `s1c`, overpaying `1200`
for the `1000` listing at time `5`. -/
def s4c : MarketState := applyPurchase s1c 3 1200 4 5 true

/-- The event the purchase leading to `s4c` emits. -/
def ev4c : PurchaseEvent :=
  { id := 4, buyer := 3, tokenId := 1, price := 1000, timestamp := 5 }


end Azmolo

namespace Payments

/-- Revert reasons of the `Payments` contract. -/
inductive PayErr where
  | paymentDoesNotExist
  | noFundsInWallet
deriving Repr, DecidableEq

/-- The `struct Payment`; the source field `from` is a reserved word in Lean
and is rendered `sender`. -/
structure Payment where
  amount : Nat
  timestamp : Nat
  sender : Azmolo.Address
  message : String
deriving Repr, DecidableEq

/-- Storage of `Payments`: the `balances` mapping flattened, so
`totalPayments a` is `balances[a].totalPayments` and `payments a i` is
`balances[a].payments[i]`. -/
structure PaymentsState where
  totalPayments : Azmolo.Address → Nat
  payments : Azmolo.Address → Nat → Payment

/-- The function `pay(message)` called by `sender` with `msg.value = msgValue`:
`require(msg.value < 0)` guards the body, and only when that holds is the
payment recorded and the counter incremented. -/
def pay (s : PaymentsState) (sender : Azmolo.Address)
    (msgValue timestamp : Nat) (message : String) :
    Except PayErr PaymentsState :=
  if msgValue < 0 then
    let paymentNum := s.totalPayments sender
    .ok { s with
      totalPayments := Function.update s.totalPayments sender
        (s.totalPayments sender + 1)
      payments := Function.update s.payments sender
        (Function.update (s.payments sender) paymentNum
          { amount := msgValue, timestamp := timestamp,
            sender := sender, message := message }) }
  else .error .noFundsInWallet

/-- Transaction semantics of `pay`: a revert leaves storage unchanged. -/
def applyPay (s : PaymentsState) (sender : Azmolo.Address)
    (msgValue timestamp : Nat) (message : String) : PaymentsState :=
  match pay s sender msgValue timestamp message with
  | .ok s' => s'
  | .error _ => s

end Payments

namespace Azmolo

/-- Inverting a successful `createListing`: the path conditions that were
checked and the exact new state. -/
theorem createListing_ok_elim {hashId : Nat → Address → Nat → Nat}
    {s s' : MarketState} {sender : Address} {tokenId price timestamp : Nat}
    (h : createListing hashId s sender tokenId price timestamp = .ok s') :
    price ≠ 0 ∧ s.nftOwner tokenId = sender ∧
    isApprovedFor s sender tokenId = true ∧
    s.tokenToListingId tokenId = 0 ∧
    s' = { s with
           listings := Function.update s.listings (hashId tokenId sender timestamp)
             { seller := sender, tokenId := tokenId, price := price, isActive := true },
           tokenToListingId := Function.update s.tokenToListingId tokenId
             (hashId tokenId sender timestamp),
           sellerListings := Function.update s.sellerListings sender
             (s.sellerListings sender ++
               [{ seller := sender, tokenId := tokenId, price := price,
                  isActive := true }]) } := by
  unfold createListing at h
  split_ifs at h with h1 h2 h3 h4
  simp only [Except.ok.injEq] at h
  simp only [not_not] at h2
  simp only [Bool.not_eq_false] at h3
  simp only [not_not] at h4
  exact ⟨h1, h2, h3, h4, h.symm⟩

/-- Inverting a successful `purchaseListing`: the path conditions that were
checked and the exact new state and event. -/
theorem purchaseListing_ok_elim {s s' : MarketState} {sender : Address}
    {msgValue listingId timestamp : Nat} {transferOk : Bool} {ev : PurchaseEvent}
    (h : purchaseListing s sender msgValue listingId timestamp transferOk
      = .ok (s', ev)) :
    (s.listings listingId).isActive = true ∧
    (s.listings listingId).price ≤ msgValue ∧
    sender ≠ (s.listings listingId).seller ∧
    msgValue * s.commissionPercent / 10000 ≤ msgValue ∧
    s.nftOwner (s.listings listingId).tokenId = (s.listings listingId).seller ∧
    isApprovedFor s (s.listings listingId).seller (s.listings listingId).tokenId
      = true ∧
    transferOk = true ∧
    s' = { s with
           listings := Function.update s.listings listingId
             { s.listings listingId with isActive := false },
           tokenToListingId :=
             Function.update s.tokenToListingId (s.listings listingId).tokenId 0,
           pendingWithdrawals :=
             Function.update
               (Function.update s.pendingWithdrawals s.owner
                 (s.pendingWithdrawals s.owner
                   + msgValue * s.commissionPercent / 10000))
               (s.listings listingId).seller
               (Function.update s.pendingWithdrawals s.owner
                 (s.pendingWithdrawals s.owner
                   + msgValue * s.commissionPercent / 10000)
                 (s.listings listingId).seller
                 + (msgValue - msgValue * s.commissionPercent / 10000)),
           nftOwner :=
             Function.update s.nftOwner (s.listings listingId).tokenId sender,
           tokenApproval :=
             Function.update s.tokenApproval (s.listings listingId).tokenId
               false } ∧
    ev = { id := listingId, buyer := sender,
           tokenId := (s.listings listingId).tokenId,
           price := (s.listings listingId).price, timestamp := timestamp } := by
  simp only [purchaseListing] at h
  by_cases hc1 : (s.listings listingId).isActive = false
  · rw [if_pos hc1] at h; exact Except.noConfusion h
  rw [if_neg hc1] at h
  by_cases hc2 : msgValue < (s.listings listingId).price
  · rw [if_pos hc2] at h; exact Except.noConfusion h
  rw [if_neg hc2] at h
  by_cases hc3 : sender = (s.listings listingId).seller
  · rw [if_pos hc3] at h; exact Except.noConfusion h
  rw [if_neg hc3] at h
  by_cases hc4 : UINT256 ≤ msgValue * s.commissionPercent
  · rw [if_pos hc4] at h; exact Except.noConfusion h
  rw [if_neg hc4] at h
  by_cases hc5 : msgValue < msgValue * s.commissionPercent / 10000
  · rw [if_pos hc5] at h; exact Except.noConfusion h
  rw [if_neg hc5] at h
  by_cases hc6 : s.nftOwner (s.listings listingId).tokenId
      ≠ (s.listings listingId).seller
  · rw [if_pos hc6] at h; exact Except.noConfusion h
  rw [if_neg hc6] at h
  by_cases hc7 : isApprovedFor s (s.listings listingId).seller
      (s.listings listingId).tokenId = false
  · rw [if_pos hc7] at h; exact Except.noConfusion h
  rw [if_neg hc7] at h
  by_cases hc8 : UINT256 ≤ s.pendingWithdrawals s.owner
      + msgValue * s.commissionPercent / 10000
  · rw [if_pos hc8] at h; exact Except.noConfusion h
  rw [if_neg hc8] at h
  by_cases hc9 : UINT256 ≤ Function.update s.pendingWithdrawals s.owner
      (s.pendingWithdrawals s.owner + msgValue * s.commissionPercent / 10000)
      (s.listings listingId).seller
      + (msgValue - msgValue * s.commissionPercent / 10000)
  · rw [if_pos hc9] at h; exact Except.noConfusion h
  rw [if_neg hc9] at h
  by_cases hc10 : transferOk = false
  · rw [if_pos hc10] at h; exact Except.noConfusion h
  rw [if_neg hc10] at h
  injection h with h'
  injection h' with hs hev
  simp only [Bool.not_eq_false] at hc1 hc7 hc10
  exact ⟨hc1, not_lt.mp hc2, hc3, not_lt.mp hc5,
    not_ne_iff.mp hc6, hc7, hc10, hs.symm, hev.symm⟩

/-- Inverting a successful `cancelListing`. -/
theorem cancelListing_ok_elim {s s' : MarketState} {sender : Address}
    {listingId : Nat} (h : cancelListing s sender listingId = .ok s') :
    (s.listings listingId).isActive = true ∧
    (s.listings listingId).seller = sender ∧
    s' = { s with
           listings := Function.update s.listings listingId
             { s.listings listingId with isActive := false },
           tokenToListingId :=
             Function.update s.tokenToListingId (s.listings listingId).tokenId
               0 } := by
  simp only [cancelListing] at h
  by_cases hc1 : (s.listings listingId).isActive = false
  · rw [if_pos hc1] at h; exact Except.noConfusion h
  rw [if_neg hc1] at h
  by_cases hc2 : (s.listings listingId).seller ≠ sender
  · rw [if_pos hc2] at h; exact Except.noConfusion h
  rw [if_neg hc2] at h
  injection h with hs
  simp only [Bool.not_eq_false] at hc1
  exact ⟨hc1, not_ne_iff.mp hc2, hs.symm⟩

/-- Inverting a successful `setCommissionPercent`. -/
theorem setCommissionPercent_ok_elim {s s' : MarketState} {sender : Address}
    {newPercent : Nat} (h : setCommissionPercent s sender newPercent = .ok s') :
    sender = s.owner ∧ newPercent ≤ MAX_COMMISSION ∧
    s' = { s with commissionPercent := newPercent } := by
  unfold setCommissionPercent at h
  split_ifs at h with h1 h2
  simp only [Except.ok.injEq] at h
  simp only [not_not] at h1
  simp only [not_lt] at h2
  exact ⟨h1, h2, h.symm⟩

/-- Inverting a successful `withdrawPrepare`. -/
theorem withdrawPrepare_ok_elim {s s1 : MarketState} {sender : Address}
    {amount : Nat} (h : withdrawPrepare s sender = .ok (s1, amount)) :
    sender = s.owner ∧ amount = s.pendingWithdrawals sender ∧
    0 < s.pendingWithdrawals sender ∧
    s1 = { s with
           pendingWithdrawals :=
             Function.update s.pendingWithdrawals sender 0 } := by
  simp only [withdrawPrepare] at h
  by_cases h1 : sender ≠ s.owner
  · rw [if_pos h1] at h; exact Except.noConfusion h
  rw [if_neg h1] at h
  by_cases h2 : 0 < s.pendingWithdrawals sender
  · rw [if_pos h2] at h
    injection h with h'
    injection h' with hs ha
    exact ⟨not_ne_iff.mp h1, ha.symm, h2, hs.symm⟩
  · rw [if_neg h2] at h; exact Except.noConfusion h

/-- Inverting a successful `withdrawFunds`: the transfer went through and
the result is exactly what `withdrawPrepare` produced. -/
theorem withdrawFunds_ok_elim {s s' : MarketState} {sender : Address}
    {transferOk : Bool} {amount : Nat}
    (h : withdrawFunds s sender transferOk = .ok (s', amount)) :
    transferOk = true ∧ withdrawPrepare s sender = .ok (s', amount) := by
  unfold withdrawFunds at h
  cases hp : withdrawPrepare s sender with
  | error e => rw [hp] at h; simp at h
  | ok p =>
    obtain ⟨s1, a⟩ := p
    rw [hp] at h
    by_cases ht : transferOk = true
    · rw [ht] at h
      simp at h
      obtain ⟨hs, ha⟩ := h
      subst hs; subst ha
      exact ⟨ht, rfl⟩
    · simp only [Bool.not_eq_true] at ht
      rw [ht] at h
      simp at h

end Azmolo

namespace Azmolo

/-- Inverting a successful `constructor` call. -/
theorem constructor_ok_elim {deployer nftContractAddress : Address}
    {commissionPercent : Nat} {nftOwner : Nat → Address}
    {approvedForAll : Address → Bool} {tokenApproval : Nat → Bool}
    {s0 : MarketState}
    (h : constructor deployer nftContractAddress commissionPercent nftOwner
      approvedForAll tokenApproval = .ok s0) :
    nftContractAddress ≠ 0 ∧ commissionPercent ≤ MAX_COMMISSION ∧
    s0 = { owner := deployer
           commissionPercent := commissionPercent
           listings := fun _ => Listing.empty
           tokenToListingId := fun _ => 0
           pendingWithdrawals := fun _ => 0
           sellerListings := fun _ => []
           nftOwner := nftOwner
           approvedForAll := approvedForAll
           tokenApproval := tokenApproval } := by
  unfold constructor at h
  split_ifs at h with h1 h2
  simp only [Except.ok.injEq] at h
  simp only [not_lt] at h2
  exact ⟨h1, h2, h.symm⟩

/-- Coherence of the listing store with the per-token index: every active
listing sits at a nonzero id and the index points back at it.  This is
the inductive invariant behind per-token uniqueness of active listings. -/
def ListingInv (s : MarketState) : Prop :=
  ∀ id, (s.listings id).isActive = true →
    id ≠ 0 ∧ s.tokenToListingId ((s.listings id).tokenId) = id

/-- Lemma: `ListingInv` is preserved by every step, for any id function that
never yields the zero word. -/
theorem listingInv_step {hashId : Nat → Address → Nat → Nat}
    (h0 : ∀ t a ts, hashId t a ts ≠ 0) {s s' : MarketState}
    (hInv : ListingInv s) (hstep : Step hashId s s') : ListingInv s' := by
  cases hstep with
  | create _ sender tokenId price timestamp h =>
    obtain ⟨hp, how, hap, htl, hs'⟩ := createListing_ok_elim h
    subst hs'
    intro id hact
    dsimp only at hact ⊢
    by_cases hid : id = hashId tokenId sender timestamp
    · subst hid
      refine ⟨h0 _ _ _, ?_⟩
      simp only [Function.update_apply, if_pos rfl]
      simp [Function.update_apply]
    · rw [Function.update_apply, if_neg hid] at hact
      obtain ⟨hne0, hpt⟩ := hInv id hact
      refine ⟨hne0, ?_⟩
      simp only [Function.update_apply, if_neg hid]
      by_cases htid : (s.listings id).tokenId = tokenId
      · exfalso
        apply hne0
        rw [htid, htl] at hpt
        exact hpt.symm
      · rw [if_neg htid]
        exact hpt
  | purchase _ sender msgValue listingId timestamp transferOk ev h =>
    obtain ⟨hact0, _, _, _, _, _, _, hs', _⟩ := purchaseListing_ok_elim h
    subst hs'
    intro id hact
    dsimp only at hact ⊢
    by_cases hid : id = listingId
    · subst hid
      rw [Function.update_apply, if_pos rfl] at hact
      simp at hact
    · rw [Function.update_apply, if_neg hid] at hact
      obtain ⟨hne0, hpt⟩ := hInv id hact
      refine ⟨hne0, ?_⟩
      simp only [Function.update_apply, if_neg hid]
      by_cases htid : (s.listings id).tokenId = (s.listings listingId).tokenId
      · exfalso
        obtain ⟨_, hpt0⟩ := hInv listingId hact0
        rw [htid, hpt0] at hpt
        exact hid hpt.symm
      · rw [if_neg htid]
        exact hpt
  | cancel _ sender listingId h =>
    obtain ⟨hact0, _, hs'⟩ := cancelListing_ok_elim h
    subst hs'
    intro id hact
    dsimp only at hact ⊢
    by_cases hid : id = listingId
    · subst hid
      rw [Function.update_apply, if_pos rfl] at hact
      simp at hact
    · rw [Function.update_apply, if_neg hid] at hact
      obtain ⟨hne0, hpt⟩ := hInv id hact
      refine ⟨hne0, ?_⟩
      simp only [Function.update_apply, if_neg hid]
      by_cases htid : (s.listings id).tokenId = (s.listings listingId).tokenId
      · exfalso
        obtain ⟨_, hpt0⟩ := hInv listingId hact0
        rw [htid, hpt0] at hpt
        exact hid hpt.symm
      · rw [if_neg htid]
        exact hpt
  | setCommission _ sender newPercent h =>
    obtain ⟨_, _, hs'⟩ := setCommissionPercent_ok_elim h
    subst hs'
    exact hInv
  | withdraw _ sender transferOk amount h =>
    obtain ⟨_, hp⟩ := withdrawFunds_ok_elim h
    obtain ⟨_, _, _, hs'⟩ := withdrawPrepare_ok_elim hp
    subst hs'
    exact hInv
  | envNft nftOwner approvedForAll tokenApproval =>
    exact hInv

/-- Lemma: `ListingInv` holds in every state reachable from a state satisfying
it. -/
theorem listingInv_reach {hashId : Nat → Address → Nat → Nat}
    (h0 : ∀ t a ts, hashId t a ts ≠ 0) {s0 s : MarketState}
    (hinit : ListingInv s0) (hr : Reach hashId s0 s) : ListingInv s := by
  induction hr with
  | refl => exact hinit
  | tail s' s'' h hs ih => exact listingInv_step h0 ih hs

/-- A freshly constructed marketplace satisfies `ListingInv`. -/
theorem listingInv_constructor {deployer nftContractAddress : Address}
    {commissionPercent : Nat} {nftOwner : Nat → Address}
    {approvedForAll : Address → Bool} {tokenApproval : Nat → Bool}
    {s0 : MarketState}
    (h : constructor deployer nftContractAddress commissionPercent nftOwner
      approvedForAll tokenApproval = .ok s0) : ListingInv s0 := by
  obtain ⟨_, _, hs0⟩ := constructor_ok_elim h
  subst hs0
  intro id hact
  simp [Listing.empty] at hact

end Azmolo

namespace Azmolo

/-- Two active listings for the same token coincide. -/
theorem listingInv_unique {s : MarketState} (hInv : ListingInv s) {id1 id2 : Nat}
    (h1 : (s.listings id1).isActive = true) (h2 : (s.listings id2).isActive = true)
    (ht : (s.listings id1).tokenId = (s.listings id2).tokenId) : id1 = id2 := by
  obtain ⟨_, p1⟩ := hInv id1 h1
  obtain ⟨_, p2⟩ := hInv id2 h2
  rw [ht, p2] at p1
  exact p1.symm

/-- An active listing forces a nonzero index entry for its token. -/
theorem listingInv_index_ne_zero {s : MarketState} (hInv : ListingInv s)
    {id : Nat} (h : (s.listings id).isActive = true) :
    s.tokenToListingId ((s.listings id).tokenId) ≠ 0 := by
  obtain ⟨hne, hpt⟩ := hInv id h
  rw [hpt]
  exact hne

/-- The commission bound is preserved by every step. -/
theorem commissionPercent_le_step {hashId : Nat → Address → Nat → Nat}
    {s s' : MarketState} (hc : s.commissionPercent ≤ MAX_COMMISSION)
    (hstep : Step hashId s s') : s'.commissionPercent ≤ MAX_COMMISSION := by
  cases hstep with
  | create _ sender tokenId price timestamp h =>
    obtain ⟨_, _, _, _, hs'⟩ := createListing_ok_elim h
    subst hs'; exact hc
  | purchase _ sender msgValue listingId timestamp transferOk ev h =>
    obtain ⟨_, _, _, _, _, _, _, hs', _⟩ := purchaseListing_ok_elim h
    subst hs'; exact hc
  | cancel _ sender listingId h =>
    obtain ⟨_, _, hs'⟩ := cancelListing_ok_elim h
    subst hs'; exact hc
  | setCommission _ sender newPercent h =>
    obtain ⟨_, hle, hs'⟩ := setCommissionPercent_ok_elim h
    subst hs'; exact hle
  | withdraw _ sender transferOk amount h =>
    obtain ⟨_, hp⟩ := withdrawFunds_ok_elim h
    obtain ⟨_, _, _, hs'⟩ := withdrawPrepare_ok_elim hp
    subst hs'; exact hc
  | envNft nftOwner approvedForAll tokenApproval => exact hc

/-- Only `setCommissionPercent` ever changes the stored rate. -/
theorem commissionPercent_frame {hashId : Nat → Address → Nat → Nat}
    {s s' : MarketState} (hstep : Step hashId s s') :
    s'.commissionPercent = s.commissionPercent ∨
    ∃ sender newPercent, setCommissionPercent s sender newPercent = .ok s' := by
  cases hstep with
  | create _ sender tokenId price timestamp h =>
    obtain ⟨_, _, _, _, hs'⟩ := createListing_ok_elim h
    subst hs'; exact Or.inl rfl
  | purchase _ sender msgValue listingId timestamp transferOk ev h =>
    obtain ⟨_, _, _, _, _, _, _, hs', _⟩ := purchaseListing_ok_elim h
    subst hs'; exact Or.inl rfl
  | cancel _ sender listingId h =>
    obtain ⟨_, _, hs'⟩ := cancelListing_ok_elim h
    subst hs'; exact Or.inl rfl
  | setCommission _ sender newPercent h =>
    exact Or.inr ⟨sender, newPercent, h⟩
  | withdraw _ sender transferOk amount h =>
    obtain ⟨_, hp⟩ := withdrawFunds_ok_elim h
    obtain ⟨_, _, _, hs'⟩ := withdrawPrepare_ok_elim hp
    subst hs'; exact Or.inl rfl
  | envNft nftOwner approvedForAll tokenApproval => exact Or.inl rfl

/-- Every entry of every seller log is an active snapshot. -/
def SellerLogActive (s : MarketState) : Prop :=
  ∀ a, ∀ l ∈ s.sellerListings a, l.isActive = true

/-- A step only ever appends to a seller log. -/
theorem sellerLog_step_append {hashId : Nat → Address → Nat → Nat}
    {s s' : MarketState} (hstep : Step hashId s s') :
    ∀ a, ∃ tl, s'.sellerListings a = s.sellerListings a ++ tl := by
  cases hstep with
  | create _ sender tokenId price timestamp h =>
    obtain ⟨_, _, _, _, hs'⟩ := createListing_ok_elim h
    subst hs'
    intro a
    dsimp only
    by_cases ha : a = sender
    · subst ha
      exact ⟨[{ seller := a, tokenId := tokenId, price := price, isActive := true }],
        by rw [Function.update_apply, if_pos rfl]⟩
    · exact ⟨[], by rw [Function.update_apply, if_neg ha, List.append_nil]⟩
  | purchase _ sender msgValue listingId timestamp transferOk ev h =>
    obtain ⟨_, _, _, _, _, _, _, hs', _⟩ := purchaseListing_ok_elim h
    subst hs'
    exact fun a => ⟨[], (List.append_nil _).symm⟩
  | cancel _ sender listingId h =>
    obtain ⟨_, _, hs'⟩ := cancelListing_ok_elim h
    subst hs'
    exact fun a => ⟨[], (List.append_nil _).symm⟩
  | setCommission _ sender newPercent h =>
    obtain ⟨_, _, hs'⟩ := setCommissionPercent_ok_elim h
    subst hs'
    exact fun a => ⟨[], (List.append_nil _).symm⟩
  | withdraw _ sender transferOk amount h =>
    obtain ⟨_, hp⟩ := withdrawFunds_ok_elim h
    obtain ⟨_, _, _, hs'⟩ := withdrawPrepare_ok_elim hp
    subst hs'
    exact fun a => ⟨[], (List.append_nil _).symm⟩
  | envNft nftOwner approvedForAll tokenApproval =>
    exact fun a => ⟨[], (List.append_nil _).symm⟩

/-- Lemma: `SellerLogActive` is preserved by every step. -/
theorem sellerLogActive_step {hashId : Nat → Address → Nat → Nat}
    {s s' : MarketState} (hAll : SellerLogActive s)
    (hstep : Step hashId s s') : SellerLogActive s' := by
  cases hstep with
  | create _ sender tokenId price timestamp h =>
    obtain ⟨_, _, _, _, hs'⟩ := createListing_ok_elim h
    subst hs'
    intro a l hl
    dsimp only at hl
    by_cases ha : a = sender
    · subst ha
      rw [Function.update_apply, if_pos rfl] at hl
      rcases List.mem_append.mp hl with hold | hnew
      · exact hAll a l hold
      · rw [List.mem_singleton.mp hnew]
    · rw [Function.update_apply, if_neg ha] at hl
      exact hAll a l hl
  | purchase _ sender msgValue listingId timestamp transferOk ev h =>
    obtain ⟨_, _, _, _, _, _, _, hs', _⟩ := purchaseListing_ok_elim h
    subst hs'
    exact hAll
  | cancel _ sender listingId h =>
    obtain ⟨_, _, hs'⟩ := cancelListing_ok_elim h
    subst hs'
    exact hAll
  | setCommission _ sender newPercent h =>
    obtain ⟨_, _, hs'⟩ := setCommissionPercent_ok_elim h
    subst hs'
    exact hAll
  | withdraw _ sender transferOk amount h =>
    obtain ⟨_, hp⟩ := withdrawFunds_ok_elim h
    obtain ⟨_, _, _, hs'⟩ := withdrawPrepare_ok_elim hp
    subst hs'
    exact hAll
  | envNft nftOwner approvedForAll tokenApproval => exact hAll

/-- An inactive (Sold or Cancelled) listing slot is left untouched by
every step except a `createListing` whose freshly hashed id collides with
the slot, which overwrites it with a new active listing. -/
theorem inactiveListing_frame {hashId : Nat → Address → Nat → Nat}
    {s s' : MarketState} {X : Nat}
    (hX : (s.listings X).isActive = false) (hstep : Step hashId s s') :
    s'.listings X = s.listings X ∨
    ∃ sender tokenId price timestamp,
      hashId tokenId sender timestamp = X ∧
      createListing hashId s sender tokenId price timestamp = .ok s' ∧
      s'.listings X =
        { seller := sender, tokenId := tokenId, price := price,
          isActive := true } := by
  cases hstep with
  | create _ sender tokenId price timestamp h =>
    obtain ⟨_, _, _, _, hs'⟩ := createListing_ok_elim h
    by_cases hid : hashId tokenId sender timestamp = X
    · right
      refine ⟨sender, tokenId, price, timestamp, hid, h, ?_⟩
      subst hs'
      dsimp only
      rw [Function.update_apply, if_pos hid.symm]
    · left
      subst hs'
      dsimp only
      rw [Function.update_apply, if_neg (fun hh => hid hh.symm)]
  | purchase _ sender msgValue listingId timestamp transferOk ev h =>
    obtain ⟨hact0, _, _, _, _, _, _, hs', _⟩ := purchaseListing_ok_elim h
    left
    subst hs'
    dsimp only
    have hne : X ≠ listingId := by
      intro he
      rw [he] at hX
      rw [hX] at hact0
      exact Bool.noConfusion hact0
    rw [Function.update_apply, if_neg hne]
  | cancel _ sender listingId h =>
    obtain ⟨hact0, _, hs'⟩ := cancelListing_ok_elim h
    left
    subst hs'
    dsimp only
    have hne : X ≠ listingId := by
      intro he
      rw [he] at hX
      rw [hX] at hact0
      exact Bool.noConfusion hact0
    rw [Function.update_apply, if_neg hne]
  | setCommission _ sender newPercent h =>
    obtain ⟨_, _, hs'⟩ := setCommissionPercent_ok_elim h
    subst hs'; exact Or.inl rfl
  | withdraw _ sender transferOk amount h =>
    obtain ⟨_, hp⟩ := withdrawFunds_ok_elim h
    obtain ⟨_, _, _, hs'⟩ := withdrawPrepare_ok_elim hp
    subst hs'; exact Or.inl rfl
  | envNft nftOwner approvedForAll tokenApproval => exact Or.inl rfl

end Azmolo

namespace Azmolo

/-- The commission bound is preserved along any reachable trace. -/
theorem commissionPercent_le_reach {hashId : Nat → Address → Nat → Nat}
    {s0 s : MarketState} (h : s0.commissionPercent ≤ MAX_COMMISSION)
    (hr : Reach hashId s0 s) : s.commissionPercent ≤ MAX_COMMISSION := by
  induction hr with
  | refl => exact h
  | tail s' s'' hr' hs ih => exact commissionPercent_le_step ih hs

/-- Lemma: `SellerLogActive` holds along any reachable trace. -/
theorem sellerLogActive_reach {hashId : Nat → Address → Nat → Nat}
    {s0 s : MarketState} (h : SellerLogActive s0)
    (hr : Reach hashId s0 s) : SellerLogActive s := by
  induction hr with
  | refl => exact h
  | tail s' s'' hr' hs ih => exact sellerLogActive_step ih hs

/-- Claim C1.  The claim is that `Withdraw` succeeds for every caller with
a positive pending balance and is rejected only on a zero balance.  The
code contradicts it: `withdrawFunds` carries the `onlyOwner` modifier, so
a seller holding sale proceeds in `pendingWithdrawals` is rejected with
the owner-only error even though the balance is positive (here seller `2`
holds `1170` wei from a completed sale), while the owner's own call goes
through.  This contradicts the contract's own comment that
`pendingWithdrawals` holds "Pending withdrawals for sellers and owner":
sellers' escrowed proceeds are permanently locked. -/
theorem C1_withdraw_rejects_positive_balance_seller :
    s4c.pendingWithdrawals 2 = 1170 ∧
    0 < s4c.pendingWithdrawals 2 ∧
    withdrawFunds s4c 2 true = .error .onlyOwner ∧
    withdrawFunds s4c 7 true = .ok (applyWithdraw s4c 7 true, 30) := by
  refine ⟨rfl, by decide, rfl, rfl⟩

/-- Claim C4.  `withdrawFunds` zeroes the caller's pending balance
strictly before the external value transfer: the state `withdrawPrepare`
hands to the transfer already has balance `0`, and the amount handed over
is exactly the prior balance.  If the external transfer fails the whole
call fails with `transferFailed` and the reverted state is the original
one, balance restored; if it succeeds the committed state is the prepared
one. -/
theorem C4_withdraw_zeroes_before_transfer {s s1 : MarketState}
    {sender : Address} {amount : Nat}
    (h : withdrawPrepare s sender = .ok (s1, amount)) :
    s1.pendingWithdrawals sender = 0 ∧
    amount = s.pendingWithdrawals sender ∧
    0 < amount ∧
    withdrawFunds s sender false = .error .transferFailed ∧
    applyWithdraw s sender false = s ∧
    withdrawFunds s sender true = .ok (s1, amount) := by
  obtain ⟨hown, hamt, hpos, hs1⟩ := withdrawPrepare_ok_elim h
  refine ⟨?_, hamt, hamt ▸ hpos, ?_, ?_, ?_⟩
  · subst hs1
    dsimp only
    rw [Function.update_apply, if_pos rfl]
  · unfold withdrawFunds
    rw [h]
    rfl
  · unfold applyWithdraw withdrawFunds
    rw [h]
    rfl
  · unfold withdrawFunds
    rw [h]
    rfl

/-- Claim C4, witness: the owner withdraws the `30` wei commission
accumulated in `s4c`; a failing transfer reverts to `s4c`, a successful
one commits the prepared state. -/
theorem C4_witness :
    (applyWithdraw s4c 7 true).pendingWithdrawals 7 = 0 ∧
    30 = s4c.pendingWithdrawals 7 ∧
    0 < 30 ∧
    withdrawFunds s4c 7 false = .error .transferFailed ∧
    applyWithdraw s4c 7 false = s4c ∧
    withdrawFunds s4c 7 true = .ok (applyWithdraw s4c 7 true, 30) :=
  @C4_withdraw_zeroes_before_transfer s4c (applyWithdraw s4c 7 true) 7 30 rfl

/-- Claim C2.  A successful purchase splits the amount actually paid
(`msgValue`, not the listing's nominal price) at the rate in force at
call time: the operator is credited `fee = msgValue * rate / 10000`, the
seller `net = msgValue - fee`, and `fee + net = msgValue` exactly.  The
update-form equation also covers the corner where the operator is the
seller; when the two differ, the per-account credits are the usual
ones. -/
theorem C2_commission_split {s s' : MarketState} {sender : Address}
    {msgValue listingId timestamp : Nat} {transferOk : Bool}
    {ev : PurchaseEvent}
    (h : purchaseListing s sender msgValue listingId timestamp transferOk
      = .ok (s', ev)) :
    msgValue * s.commissionPercent / 10000
      + (msgValue - msgValue * s.commissionPercent / 10000) = msgValue ∧
    s'.pendingWithdrawals =
      Function.update
        (Function.update s.pendingWithdrawals s.owner
          (s.pendingWithdrawals s.owner
            + msgValue * s.commissionPercent / 10000))
        (s.listings listingId).seller
        (Function.update s.pendingWithdrawals s.owner
          (s.pendingWithdrawals s.owner
            + msgValue * s.commissionPercent / 10000)
          (s.listings listingId).seller
          + (msgValue - msgValue * s.commissionPercent / 10000)) ∧
    (s.owner ≠ (s.listings listingId).seller →
      s'.pendingWithdrawals s.owner = s.pendingWithdrawals s.owner
        + msgValue * s.commissionPercent / 10000 ∧
      s'.pendingWithdrawals (s.listings listingId).seller
        = s.pendingWithdrawals (s.listings listingId).seller
          + (msgValue - msgValue * s.commissionPercent / 10000)) := by
  obtain ⟨_, _, _, hfee, _, _, _, hs', _⟩ := purchaseListing_ok_elim h
  refine ⟨Nat.add_sub_cancel' hfee, ?_, ?_⟩
  · subst hs'
    rfl
  · intro hne
    subst hs'
    dsimp only
    constructor
    · rw [Function.update_apply, if_neg hne, Function.update_apply, if_pos rfl]
    · rw [Function.update_apply, if_pos rfl, Function.update_apply,
        if_neg (fun hh => hne hh.symm)]

/-- Claim C2, witness: the overpaying purchase at 2.5% splits 1200 into
fee 30 and net 1170 on the paid amount, conserving it. -/
theorem C2_witness :
    1200 * s1c.commissionPercent / 10000
      + (1200 - 1200 * s1c.commissionPercent / 10000) = 1200 ∧
    (s1c.owner ≠ (s1c.listings 4).seller →
      s4c.pendingWithdrawals s1c.owner = s1c.pendingWithdrawals s1c.owner
        + 1200 * s1c.commissionPercent / 10000 ∧
      s4c.pendingWithdrawals (s1c.listings 4).seller
        = s1c.pendingWithdrawals (s1c.listings 4).seller
          + (1200 - 1200 * s1c.commissionPercent / 10000)) :=
  ⟨(@C2_commission_split s1c s4c 3 1200 4 5 true ev4c rfl).1,
   (@C2_commission_split s1c s4c 3 1200 4 5 true ev4c rfl).2.2⟩

/-- Claim C8, counterexample.  The claim says every successful purchase's
receipt carries the amount actually paid.  The `PurchaseCompleted` event
emits `listing.price`: buyer `3` pays `1200` for the `1000` listing, yet
the emitted event's amount field is `1000`, not `1200`. -/
theorem C8_counterexample :
    purchaseListing s1c 3 1200 4 5 true = .ok (s4c, ev4c) ∧
    (s1c.listings 4).price = 1000 ∧
    ev4c.price = 1000 ∧
    ev4c.price ≠ 1200 :=
  ⟨rfl, rfl, rfl, by decide⟩

/-- Claim C8 as amended: every successful purchase emits exactly one
`PurchaseCompleted` event, and its amount field is the listing's nominal
price at call time (so it understates the paid amount when the buyer
overpays), alongside the listing id, the buyer and the block time. -/
theorem C8_event_carries_nominal_price {s s' : MarketState}
    {sender : Address} {msgValue listingId timestamp : Nat}
    {transferOk : Bool} {ev : PurchaseEvent}
    (h : purchaseListing s sender msgValue listingId timestamp transferOk
      = .ok (s', ev)) :
    ev = { id := listingId, buyer := sender,
           tokenId := (s.listings listingId).tokenId,
           price := (s.listings listingId).price, timestamp := timestamp } :=
  (purchaseListing_ok_elim h).2.2.2.2.2.2.2.2

/-- Claim C8 as amended, witness: the concrete overpaying purchase emits
the event with the nominal price `1000`. -/
theorem C8_witness :
    ev4c = { id := 4, buyer := 3, tokenId := (s1c.listings 4).tokenId,
             price := (s1c.listings 4).price, timestamp := 5 } :=
  @C8_event_carries_nominal_price s1c s4c 3 1200 4 5 true ev4c rfl

end Azmolo

namespace Azmolo

/-- Claim C3.  In every state reachable from a constructed marketplace
(for an id function that, like keccak, never yields the zero word), at
most one active listing exists per token; and a `createListing` for a
token that already has an active listing can never succeed — in
particular, when the earlier checks (price, ownership, approval) pass it
fails with `alreadyListed` and the reverted call leaves the state, hence
the existing listing, unchanged. -/
theorem C3_unique_active_listing {hashId : Nat → Address → Nat → Nat}
    {deployer nftContractAddress : Address} {commissionPercent : Nat}
    {nftOwner : Nat → Address} {approvedForAll : Address → Bool}
    {tokenApproval : Nat → Bool} {s0 s : MarketState}
    (h0 : ∀ t a ts, hashId t a ts ≠ 0)
    (hc : constructor deployer nftContractAddress commissionPercent nftOwner
      approvedForAll tokenApproval = .ok s0)
    (hr : Reach hashId s0 s) :
    (∀ id1 id2, (s.listings id1).isActive = true →
      (s.listings id2).isActive = true →
      (s.listings id1).tokenId = (s.listings id2).tokenId → id1 = id2) ∧
    (∀ sender tokenId price timestamp idA,
      (s.listings idA).isActive = true → (s.listings idA).tokenId = tokenId →
      (∀ s'', createListing hashId s sender tokenId price timestamp ≠ .ok s'') ∧
      (price ≠ 0 → s.nftOwner tokenId = sender →
        isApprovedFor s sender tokenId = true →
        createListing hashId s sender tokenId price timestamp
          = .error .alreadyListed ∧
        applyCreate hashId s sender tokenId price timestamp = s)) := by
  have hInv := listingInv_reach h0 (listingInv_constructor hc) hr
  constructor
  · intro id1 id2 ha1 ha2 ht
    exact listingInv_unique hInv ha1 ha2 ht
  · intro sender tokenId price timestamp idA hact htid
    have hne : s.tokenToListingId tokenId ≠ 0 := by
      have hz := listingInv_index_ne_zero hInv hact
      rw [htid] at hz
      exact hz
    constructor
    · intro s'' hok
      obtain ⟨_, _, _, htl0, _⟩ := createListing_ok_elim hok
      exact hne htl0
    · intro hp how hap
      constructor
      · unfold createListing
        rw [if_neg hp, if_neg (not_not_intro how), if_neg (by simp [hap]),
          if_pos hne]
      · unfold applyCreate createListing
        rw [if_neg hp, if_neg (not_not_intro how), if_neg (by simp [hap]),
          if_pos hne]

/-- Claim C3, witness: with the concrete id function and deployment,
token `1` is actively listed in `s1c`; a second listing attempt by its
owner at a different price and time fails with `alreadyListed` and the
reverted call leaves the state unchanged. -/
theorem C3_witness :
    (∀ s'', createListing hashId0 s1c 2 1 50 9 ≠ .ok s'') ∧
    createListing hashId0 s1c 2 1 50 9 = .error .alreadyListed ∧
    applyCreate hashId0 s1c 2 1 50 9 = s1c := by
  have happ := @C3_unique_active_listing hashId0 7 9 250 nftOwner0
    approvedForAll0 tokenApproval0 s0c s1c
    (fun t a ts => Nat.succ_ne_zero (t + a + ts)) rfl
    (Reach.tail s0c s0c s1c (Reach.refl s0c)
      (Step.create s0c s1c 2 1 1000 0 rfl))
  have h2 := happ.2 2 1 50 9 4 rfl rfl
  have h3 := h2.2 (by decide) rfl rfl
  exact ⟨h2.1, h3.1, h3.2⟩

/-- Claim C5.  The purchase preconditions are checked in the order
listing-active, payment sufficiency, self-purchase, ownership
re-validation, each failing with its own error, and every failing call
reverts, leaving the whole state — in particular an Active listing hit by
`sellerNoLongerOwns` — unchanged. -/
theorem C5_purchase_check_order (s : MarketState) (sender : Address)
    (msgValue listingId timestamp : Nat) (transferOk : Bool) :
    ((s.listings listingId).isActive = false →
      purchaseListing s sender msgValue listingId timestamp transferOk
        = .error .notActive) ∧
    ((s.listings listingId).isActive = true →
      msgValue < (s.listings listingId).price →
      purchaseListing s sender msgValue listingId timestamp transferOk
        = .error .insufficientPayment) ∧
    ((s.listings listingId).isActive = true →
      (s.listings listingId).price ≤ msgValue →
      sender = (s.listings listingId).seller →
      purchaseListing s sender msgValue listingId timestamp transferOk
        = .error .selfPurchase) ∧
    ((s.listings listingId).isActive = true →
      (s.listings listingId).price ≤ msgValue →
      sender ≠ (s.listings listingId).seller →
      msgValue * s.commissionPercent < UINT256 →
      msgValue * s.commissionPercent / 10000 ≤ msgValue →
      s.nftOwner (s.listings listingId).tokenId
        ≠ (s.listings listingId).seller →
      purchaseListing s sender msgValue listingId timestamp transferOk
        = .error .sellerNoLongerOwns) ∧
    (∀ e, purchaseListing s sender msgValue listingId timestamp transferOk
        = .error e →
      applyPurchase s sender msgValue listingId timestamp transferOk = s) := by
  refine ⟨?_, ?_, ?_, ?_, ?_⟩
  · intro h1
    simp only [purchaseListing]
    rw [if_pos h1]
  · intro ha hlt
    simp only [purchaseListing]
    rw [if_neg (by simp [ha]), if_pos hlt]
  · intro ha hle hself
    simp only [purchaseListing]
    rw [if_neg (by simp [ha]), if_neg (not_lt.mpr hle), if_pos hself]
  · intro ha hle hself hmul hfee hown
    simp only [purchaseListing]
    rw [if_neg (by simp [ha]), if_neg (not_lt.mpr hle), if_neg hself,
      if_neg (not_le.mpr hmul), if_neg (not_lt.mpr hfee), if_pos hown]
  · intro e he
    unfold applyPurchase
    rw [he]

/-- Claim C5, witness: buyer `3` tries to buy the cancelled listing `4`
in `s2c`; the call fails with `notActive` and the reverted transaction
leaves the state unchanged. -/
theorem C5_witness :
    purchaseListing s2c 3 1200 4 5 true = .error .notActive ∧
    applyPurchase s2c 3 1200 4 5 true = s2c :=
  ⟨(C5_purchase_check_order s2c 3 1200 4 5 true).1 rfl,
   (C5_purchase_check_order s2c 3 1200 4 5 true).2.2.2.2 .notActive
     ((C5_purchase_check_order s2c 3 1200 4 5 true).1 rfl)⟩

/-- Claim C6, counterexample.  Cancelled is not terminal: seller `2`
lists token `1` at time `0` (listing id `4`), cancels it, and lists the
same token again at the same block time.  The id hashes to `4` again —
as the real `keccak256(tokenId, sender, timestamp)` also would on equal
inputs — and the cancelled listing's slot is overwritten with a fresh
active listing at a new price: its status and price both change after
cancellation. -/
theorem C6_counterexample :
    createListing hashId0 s0c 2 1 1000 0 = .ok s1c ∧
    cancelListing s1c 2 4 = .ok s2c ∧
    (s2c.listings 4).isActive = false ∧
    (s2c.listings 4).price = 1000 ∧
    createListing hashId0 s2c 2 1 2000 0 = .ok s3c ∧
    s3c.listings 4
      = { seller := 2, tokenId := 1, price := 2000, isActive := true } :=
  ⟨rfl, rfl, rfl, rfl, rfl, rfl⟩

/-- Claim C6 as amended: a Sold or Cancelled listing's slot is never
changed by any subsequent purchase, cancellation, commission update,
withdrawal or environment action; the only operation that can change it
is a `createListing` whose freshly computed listing id (same token,
seller and block time hashed by the real contract) collides with the
slot, in which case the slot is replaced by the new active listing. -/
theorem C6_terminal_modulo_id_reuse {hashId : Nat → Address → Nat → Nat}
    {s s' : MarketState} {X : Nat}
    (hX : (s.listings X).isActive = false) (hstep : Step hashId s s') :
    s'.listings X = s.listings X ∨
    ∃ sender tokenId price timestamp,
      hashId tokenId sender timestamp = X ∧
      createListing hashId s sender tokenId price timestamp = .ok s' ∧
      s'.listings X =
        { seller := sender, tokenId := tokenId, price := price,
          isActive := true } :=
  inactiveListing_frame hX hstep

/-- Claim C6 as amended, witness: an owner withdrawal step out of `s4c`
leaves the sold listing `4` untouched. -/
theorem C6_witness :
    (applyWithdraw s4c 7 true).listings 4 = s4c.listings 4 ∨
    ∃ sender tokenId price timestamp,
      hashId0 tokenId sender timestamp = 4 ∧
      createListing hashId0 s4c sender tokenId price timestamp
        = .ok (applyWithdraw s4c 7 true) ∧
      (applyWithdraw s4c 7 true).listings 4 =
        { seller := sender, tokenId := tokenId, price := price,
          isActive := true } :=
  C6_terminal_modulo_id_reuse rfl
    (Step.withdraw s4c (applyWithdraw s4c 7 true) 7 true 30 rfl)

/-- Claim C7.  The commission rate never exceeds `MAX_COMMISSION` in any
reachable state; `setCommissionPercent` rejects a non-owner caller with
the owner-only error and an over-limit rate with the bound error, in both
cases reverting to the unchanged state; only `setCommissionPercent`
changes the rate; and the constructor rejects an over-limit initial
rate. -/
theorem C7_commission_rate_bounded {hashId : Nat → Address → Nat → Nat}
    {deployer nftContractAddress : Address} {commissionPercent : Nat}
    {nftOwner : Nat → Address} {approvedForAll : Address → Bool}
    {tokenApproval : Nat → Bool} {s0 s : MarketState}
    (hc : constructor deployer nftContractAddress commissionPercent nftOwner
      approvedForAll tokenApproval = .ok s0)
    (hr : Reach hashId s0 s) :
    s.commissionPercent ≤ MAX_COMMISSION ∧
    (∀ sender newPercent, sender ≠ s.owner →
      setCommissionPercent s sender newPercent = .error .onlyOwner ∧
      applySetCommission s sender newPercent = s) ∧
    (∀ newPercent, MAX_COMMISSION < newPercent →
      setCommissionPercent s s.owner newPercent = .error .commissionTooHigh ∧
      applySetCommission s s.owner newPercent = s) ∧
    (∀ s', Step hashId s s' →
      s'.commissionPercent = s.commissionPercent ∨
      ∃ sender newPercent, setCommissionPercent s sender newPercent
        = .ok s') ∧
    (∀ d2 na2 cp2 no2 af2 ta2, na2 ≠ 0 → MAX_COMMISSION < cp2 →
      constructor d2 na2 cp2 no2 af2 ta2 = .error .commissionTooHigh) := by
  obtain ⟨_, hcp, hs0⟩ := constructor_ok_elim hc
  have h0cp : s0.commissionPercent ≤ MAX_COMMISSION := by
    rw [hs0]
    exact hcp
  refine ⟨commissionPercent_le_reach h0cp hr, ?_, ?_, ?_, ?_⟩
  · intro sender newPercent hsend
    constructor
    · unfold setCommissionPercent
      rw [if_pos hsend]
    · unfold applySetCommission setCommissionPercent
      rw [if_pos hsend]
  · intro newPercent hgt
    constructor
    · unfold setCommissionPercent
      rw [if_neg (not_not_intro rfl), if_pos hgt]
    · unfold applySetCommission setCommissionPercent
      rw [if_neg (not_not_intro rfl), if_pos hgt]
  · intro s' hstep
    exact commissionPercent_frame hstep
  · intro d2 na2 cp2 no2 af2 ta2 hna hcp2
    unfold constructor
    rw [if_neg hna, if_pos hcp2]

/-- Claim C7, witness: in the concrete deployment the rate `250` is in
bounds; a stranger cannot set it, the owner cannot set `10000`
(> 5000), and deploying at `10000` is rejected. -/
theorem C7_witness :
    s0c.commissionPercent ≤ MAX_COMMISSION ∧
    (setCommissionPercent s0c 3 100 = .error .onlyOwner ∧
      applySetCommission s0c 3 100 = s0c) ∧
    (setCommissionPercent s0c s0c.owner 10000 = .error .commissionTooHigh ∧
      applySetCommission s0c s0c.owner 10000 = s0c) ∧
    constructor 7 9 10000 nftOwner0 approvedForAll0 tokenApproval0
      = .error .commissionTooHigh := by
  have happ := @C7_commission_rate_bounded hashId0 7 9 250 nftOwner0
    approvedForAll0 tokenApproval0 s0c s0c rfl (Reach.refl s0c)
  exact ⟨happ.1, happ.2.1 3 100 (by decide), happ.2.2.1 10000 (by decide),
    happ.2.2.2.2 7 9 10000 nftOwner0 approvedForAll0 tokenApproval0
      (by decide) (by decide)⟩

/-- Claim C10.  The per-seller log stores creation-time snapshots: in
every reachable state every entry of every seller's log still has
`isActive = true` (sold and cancelled listings included, since the stored
copies are never updated), and any step only ever appends to a log. -/
theorem C10_seller_log_append_only {hashId : Nat → Address → Nat → Nat}
    {deployer nftContractAddress : Address} {commissionPercent : Nat}
    {nftOwner : Nat → Address} {approvedForAll : Address → Bool}
    {tokenApproval : Nat → Bool} {s0 s : MarketState}
    (hc : constructor deployer nftContractAddress commissionPercent nftOwner
      approvedForAll tokenApproval = .ok s0)
    (hr : Reach hashId s0 s) :
    (∀ a, ∀ l ∈ getListingsBySeller s a, l.isActive = true) ∧
    (∀ s', Step hashId s s' →
      ∀ a, ∃ tl, getListingsBySeller s' a = getListingsBySeller s a ++ tl) := by
  have hinit : SellerLogActive s0 := by
    obtain ⟨_, _, hs0⟩ := constructor_ok_elim hc
    subst hs0
    intro a l hl
    simp at hl
  refine ⟨sellerLogActive_reach hinit hr, ?_⟩
  intro s' hstep a
  exact sellerLog_step_append hstep a

/-- Claim C10, witness: after the concrete create, seller `2`'s log
entries are all active, and the step appended to the (empty) log. -/
theorem C10_witness :
    (∀ l ∈ getListingsBySeller s1c 2, l.isActive = true) ∧
    (∃ tl, getListingsBySeller s1c 2 = getListingsBySeller s0c 2 ++ tl) := by
  have h01 := @C10_seller_log_append_only hashId0 7 9 250 nftOwner0
    approvedForAll0 tokenApproval0 s0c s1c rfl
    (Reach.tail s0c s0c s1c (Reach.refl s0c)
      (Step.create s0c s1c 2 1 1000 0 rfl))
  have h00 := @C10_seller_log_append_only hashId0 7 9 250 nftOwner0
    approvedForAll0 tokenApproval0 s0c s0c rfl (Reach.refl s0c)
  exact ⟨h01.1 2, h00.2 s1c (Step.create s0c s1c 2 1 1000 0 rfl) 2⟩

end Azmolo

namespace Payments

/-- Claim C9.  `pay` requires `msg.value < 0`, which no unsigned value
satisfies, so every call fails with the no-funds error for every value
and message, the reverted transaction leaves the storage unchanged, no
payment record is stored, and `totalPayments` never increases. -/
theorem C9_pay_always_reverts (s : PaymentsState) (sender : Azmolo.Address)
    (msgValue timestamp : Nat) (message : String) :
    pay s sender msgValue timestamp message = .error .noFundsInWallet ∧
    applyPay s sender msgValue timestamp message = s ∧
    (applyPay s sender msgValue timestamp message).totalPayments sender
      = s.totalPayments sender := by
  have hne : ¬ msgValue < 0 := Nat.not_lt_zero _
  refine ⟨?_, ?_, ?_⟩
  · unfold pay
    rw [if_neg hne]
  · unfold applyPay pay
    rw [if_neg hne]
  · unfold applyPay pay
    rw [if_neg hne]

end Payments
